import Mathlib

/-!
Verification of the bountyagents task/escrow protocol.

The development shallowly embeds, in order:
1. the canonical signing codec (`canonicalize` / `canonicalStringify` of
   the signature payload module);
2. the packed byte pre-images of the WITHDRAW and SETTLE authorization
   digests, as built off-chain (`buildWithdrawDataHash`,
   `buildSettleDataHash`) and on-chain (`_withdrawDigest`,
   `_settleDigest` of the `AgentEscrow` contract);
3. the `AgentEscrow` contract's deposit ledger with its `deposit`,
   `withdraw` and `settle` entry points;
4. the task service operations (`fundTask`, `decideOnResponse`,
   `cancelTask`) over an explicit store, with collaborator capabilities
   (signature verification, address normalization, escrow reads, the
   administrative signer, store-write outcomes) passed as an
   environment.

Machine integers are modelled as `Nat`; addresses are 160-bit values
(`Nat`) on chain and strings at the service boundary; fallible steps
return `Except`.
-/

namespace Spec2Proof

/-! ## Canonical signing codec -/

/-- JSON-like values as handled by `canonicalize` in the signing codec:
primitives, arrays, keyed maps, plus the distinguished absent value
(`undefined`) that object entries may carry. -/
inductive JVal where
  | jnull
  | jundef
  | jbool (b : Bool)
  | jnum (n : Int)
  | jstr (s : String)
  | jarr (items : List JVal)
  | jobj (entries : List (String × JVal))

/-- The `v !== undefined` test used to drop absent object entries. -/
def isUndef : JVal → Bool
  | .jundef => true
  | _ => false

/-- Comparator used on object entries: compare keys, modelling
`([a], [b]) => a.localeCompare(b)` as the lexicographic string order
(`localeCompare` is a total order on the key strings in use). -/
def entryLE (p q : String × JVal) : Prop := p.1 ≤ q.1

instance : DecidableRel entryLE := fun p q => inferInstanceAs (Decidable (p.1 ≤ q.1))

instance : IsTotal (String × JVal) entryLE := ⟨fun p q => le_total p.1 q.1⟩

instance : IsTrans (String × JVal) entryLE := ⟨fun _ _ _ h1 h2 => le_trans h1 h2⟩

/-- Sorting of object entries by key, modelling `.sort((a, b) => a.localeCompare(b))`. -/
def sortEntries (l : List (String × JVal)) : List (String × JVal) :=
  List.insertionSort entryLE l

lemma sizeOf_snd_lt_of_mem {p : String × JVal} {entries : List (String × JVal)}
    (h : p ∈ entries) : sizeOf p.2 < 1 + sizeOf entries := by
  have h1 := List.sizeOf_lt_of_mem h
  have h2 : sizeOf p.2 < sizeOf p := by
    cases p with
    | mk a b =>
      simp only [Prod.mk.sizeOf_spec]
      omega
  omega

/-- Embedding of `canonicalize` (signing codec): null and undefined
collapse to null, primitives map to themselves, arrays recurse, objects
drop entries whose value is undefined, sort the rest by key, and recurse
on the values. -/
def canonicalize : JVal → JVal
  | .jnull => .jnull
  | .jundef => .jnull
  | .jbool b => .jbool b
  | .jnum n => .jnum n
  | .jstr s => .jstr s
  | .jarr items => .jarr (items.attach.map (fun x => canonicalize x.1))
  | .jobj entries =>
      .jobj ((sortEntries (entries.filter (fun p => !(isUndef p.2)))).attach.map
        (fun x => (x.1.1, canonicalize x.1.2)))
decreasing_by
  · have h1 := List.sizeOf_lt_of_mem x.2
    simp only [JVal.jarr.sizeOf_spec]
    omega
  · have hmem2 := ((List.perm_insertionSort entryLE _).mem_iff).mp x.2
    have hmem3 := List.mem_of_mem_filter hmem2
    have h4 := sizeOf_snd_lt_of_mem hmem3
    simp only [JVal.jobj.sizeOf_spec]
    omega

lemma canonicalize_jarr (items : List JVal) :
    canonicalize (.jarr items) = .jarr (items.map canonicalize) := by
  rw [canonicalize]
  congr 1
  exact List.attach_map_coe _ _

/-- Canonical object entries: drop undefined values, sort by key,
canonicalize the values. -/
def canonObjEntries (entries : List (String × JVal)) : List (String × JVal) :=
  (sortEntries (entries.filter (fun p => !(isUndef p.2)))).map
    (fun p => (p.1, canonicalize p.2))

lemma canonicalize_jobj (entries : List (String × JVal)) :
    canonicalize (.jobj entries) = .jobj (canonObjEntries entries) := by
  rw [canonicalize, canonObjEntries]
  congr 1
  exact List.attach_map_coe _ (fun p : String × JVal => (p.1, canonicalize p.2))

/-- JSON string literal rendering (escaping is not exercised by the
payloads in scope). -/
def jstring (s : String) : String := "\"" ++ s ++ "\""

/-- Embedding of `JSON.stringify` on canonical values: no superfluous
whitespace, keys rendered in list order. `jundef` is unreachable after
`canonicalize`. -/
def stringify : JVal → String
  | .jnull => "null"
  | .jundef => "null"
  | .jbool b => if b then "true" else "false"
  | .jnum n => toString n
  | .jstr s => jstring s
  | .jarr items =>
      "[" ++ String.intercalate "," (items.attach.map (fun x => stringify x.1)) ++ "]"
  | .jobj entries =>
      "\x7b" ++ String.intercalate ","
        (entries.attach.map (fun x => jstring x.1.1 ++ ":" ++ stringify x.1.2)) ++ "\x7d"
decreasing_by
  · have h1 := List.sizeOf_lt_of_mem x.2
    simp only [JVal.jarr.sizeOf_spec]
    omega
  · have h4 := sizeOf_snd_lt_of_mem x.2
    simp only [JVal.jobj.sizeOf_spec]
    omega

/-- Embedding of `canonicalStringify`: serialize the canonicalized value. -/
def canonicalStringify (v : JVal) : String := stringify (canonicalize v)

lemma sortEntries_perm (l : List (String × JVal)) : (sortEntries l).Perm l :=
  List.perm_insertionSort entryLE l

lemma sortEntries_sorted (l : List (String × JVal)) :
    List.Sorted entryLE (sortEntries l) :=
  List.sorted_insertionSort entryLE l

/-- Two sorted entry lists that are permutations of each other and have
pairwise-distinct keys are equal. -/
lemma sorted_perm_nodupkeys_eq :
    ∀ (l₁ l₂ : List (String × JVal)), l₁.Perm l₂ →
      List.Sorted entryLE l₁ → List.Sorted entryLE l₂ →
      (l₁.map Prod.fst).Nodup → l₁ = l₂
  | [], l₂, hp, _, _, _ => (hp.symm.eq_nil).symm
  | a :: t₁, [], hp, _, _, _ => absurd hp.eq_nil (by simp)
  | a :: t₁, b :: t₂, hp, hs₁, hs₂, hn => by
    obtain ⟨ha_all, hs₁t⟩ := List.sorted_cons.mp hs₁
    obtain ⟨hb_all, hs₂t⟩ := List.sorted_cons.mp hs₂
    have hab : a = b := by
      have hbmem : b ∈ a :: t₁ := hp.symm.subset (List.mem_cons_self b t₂)
      have hamem : a ∈ b :: t₂ := hp.subset (List.mem_cons_self a t₁)
      rcases List.mem_cons.mp hbmem with hba | hbt
      · exact hba.symm
      rcases List.mem_cons.mp hamem with hab' | hat
      · exact hab'
      have h1 : a.1 ≤ b.1 := ha_all b hbt
      have h2 : b.1 ≤ a.1 := hb_all a hat
      have hkey : a.1 = b.1 := le_antisymm h1 h2
      have hnk := List.nodup_cons.mp hn
      exact absurd (hkey ▸ List.mem_map_of_mem Prod.fst hbt) hnk.1
    subst hab
    have ht := sorted_perm_nodupkeys_eq t₁ t₂ hp.cons_inv hs₁t hs₂t
      (List.nodup_cons.mp hn).2
    rw [ht]

/-- Canonicalization of a keyed map is invariant under the insertion
order of its entries, given pairwise-distinct keys. -/
lemma canonicalize_jobj_perm (e₁ e₂ : List (String × JVal)) (hp : e₁.Perm e₂)
    (hn : (e₁.map Prod.fst).Nodup) :
    canonicalize (.jobj e₁) = canonicalize (.jobj e₂) := by
  rw [canonicalize_jobj, canonicalize_jobj]
  have hpf : (e₁.filter (fun p => !(isUndef p.2))).Perm (e₂.filter (fun p => !(isUndef p.2))) :=
    hp.filter _
  have hps : (sortEntries (e₁.filter (fun p => !(isUndef p.2)))).Perm
      (sortEntries (e₂.filter (fun p => !(isUndef p.2)))) :=
    ((sortEntries_perm _).trans hpf).trans (sortEntries_perm _).symm
  have hnf : ((e₁.filter (fun p => !(isUndef p.2))).map Prod.fst).Nodup :=
    hn.sublist ((List.filter_sublist _).map Prod.fst)
  have hns : ((sortEntries (e₁.filter (fun p => !(isUndef p.2)))).map Prod.fst).Nodup :=
    (((sortEntries_perm _).map Prod.fst).nodup_iff).mpr hnf
  have heq := sorted_perm_nodupkeys_eq _ _ hps
    (sortEntries_sorted _) (sortEntries_sorted _) hns
  rw [canonObjEntries, canonObjEntries, heq]

/-! ## Digest builder: packed byte pre-images

Shared formula computed off-chain (`buildWithdrawDataHash` in the task
service, `buildSettleDataHash` in the plugin) and on-chain
(`_withdrawDigest`, `_settleDigest` in `AgentEscrow`). `encodePacked`
and `abi.encodePacked` both emit, in argument order: UTF-8 bytes of a
string (no length prefix), 20 big-endian bytes of an address, 32 bytes
of a `bytes32`, 32 big-endian bytes of a `uint256`. -/

/-- Big-endian byte rendering of a natural number in `width` bytes. -/
def toBytesBE (value : Nat) : Nat → List Nat
  | 0 => []
  | w + 1 => toBytesBE (value / 256) w ++ [value % 256]

/-- Bytes of an ASCII tag string (UTF-8 coincides with the code points). -/
def stringBytes (s : String) : List Nat := s.data.map Char.toNat

/-- Packed encoding of an `address` value: 20 big-endian bytes. -/
def addressBytes (a : Nat) : List Nat := toBytesBE (a % 2 ^ 160) 20

/-- Packed encoding of a `bytes32` value: 32 bytes. -/
def bytes32Bytes (k : Nat) : List Nat := toBytesBE (k % 2 ^ 256) 32

/-- Packed encoding of a `uint256` value: 32 big-endian bytes. -/
def uint256Bytes (n : Nat) : List Nat := toBytesBE (n % 2 ^ 256) 32

/-- Pre-image assembled by the off-chain `buildWithdrawDataHash`
(task service, `withdraw.ts`): `encodePacked` over types
`['string', 'address', 'bytes32', 'address', 'address', 'uint256']` with
values `['WITHDRAW', contract, key, owner, token, amount]`. The
`getAddress` normalization applied there changes only the hex-string
casing, never the 160-bit address value, so it is the identity here. -/
def buildWithdrawDataHashPreimage (contractAddress key owner token amount : Nat) :
    List Nat :=
  stringBytes "WITHDRAW" ++ addressBytes contractAddress ++ bytes32Bytes key ++
    addressBytes owner ++ addressBytes token ++ uint256Bytes amount

/-- Pre-image assembled by the off-chain `buildSettleDataHash` (plugin,
`signers.ts`): `encodePacked` over
`['string', 'address', 'bytes32', 'address', 'address', 'address', 'uint256']`
with values `['SETTLE', contract, key, owner, token, worker, amount]`. -/
def buildSettleDataHashPreimage (contractAddress key owner token worker amount : Nat) :
    List Nat :=
  stringBytes "SETTLE" ++ addressBytes contractAddress ++ bytes32Bytes key ++
    addressBytes owner ++ addressBytes token ++ addressBytes worker ++
    uint256Bytes amount

/-- Pre-image hashed by the on-chain `_withdrawDigest`:
`abi.encodePacked('WITHDRAW', address(this), key, ownerAddress, token, amount)`. -/
def escrowWithdrawDigestPreimage (thisAddress key ownerAddress token amount : Nat) :
    List Nat :=
  stringBytes "WITHDRAW" ++ addressBytes thisAddress ++ bytes32Bytes key ++
    addressBytes ownerAddress ++ addressBytes token ++ uint256Bytes amount

/-- Pre-image hashed by the on-chain `_settleDigest`:
`abi.encodePacked('SETTLE', address(this), key, ownerAddress, token, recipient, amount)`. -/
def escrowSettleDigestPreimage (thisAddress key ownerAddress token recipient amount : Nat) :
    List Nat :=
  stringBytes "SETTLE" ++ addressBytes thisAddress ++ bytes32Bytes key ++
    addressBytes ownerAddress ++ addressBytes token ++ addressBytes recipient ++
    uint256Bytes amount

/-! ## On-chain escrow ledger (`AgentEscrow`) -/

/-- A ledger entry (`TaskDeposit` struct). The Solidity mapping default
is the all-zero entry; a zero owner means no deposit exists. -/
structure TaskDeposit where
  owner : Nat
  token : Nat
  amountLocked : Nat
  released : Bool
  deriving DecidableEq, Repr

def emptyDeposit : TaskDeposit := ⟨0, 0, 0, false⟩

/-- Contract storage: configuration plus the `deposits` mapping and the
contract's own address (`address(this)`, bound into every digest). -/
structure EscrowState where
  self : Nat
  adminSigner : Nat
  feeRecipient : Nat
  serviceFeeBps : Nat
  deposits : Nat → TaskDeposit

/-- Cryptographic capabilities of the chain: `keccak256` and `ecrecover`
composed with the signature-shape checks of `_recover` (which reverts on
malformed signatures, modelled by `none`). -/
structure ChainCrypto where
  keccak : List Nat → Nat
  recover : Nat → Nat → Option Nat

/-- The personal-sign envelope `_toEthSignedMessageHash`:
`keccak256(abi.encodePacked('\x19Ethereum Signed Message:\n32', hash))`. -/
def toEthSignedMessageHash (c : ChainCrypto) (h : Nat) : Nat :=
  c.keccak (stringBytes "\x19Ethereum Signed Message:\n32" ++ bytes32Bytes h)

/-- The on-chain `_withdrawDigest`: hash the packed pre-image, then wrap
it in the personal-sign envelope. -/
def escrowWithdrawDigest (c : ChainCrypto) (s : EscrowState)
    (key ownerAddress token amount : Nat) : Nat :=
  toEthSignedMessageHash c
    (c.keccak (escrowWithdrawDigestPreimage s.self key ownerAddress token amount))

/-- The on-chain `_settleDigest`. -/
def escrowSettleDigest (c : ChainCrypto) (s : EscrowState)
    (key ownerAddress token recipient amount : Nat) : Nat :=
  toEthSignedMessageHash c
    (c.keccak (escrowSettleDigestPreimage s.self key ownerAddress token recipient amount))

/-- Revert reasons of the escrow contract: the custom errors plus
`require` messages. -/
inductive EscrowError where
  | depositAlreadyExists (key : Nat)
  | depositMissing (key : Nat)
  | depositAlreadyReleased (key : Nat)
  | invalidSignature
  | requireFail (message : String)
  deriving DecidableEq, Repr

/-- The `deposit(key, token, amount)` entry point: rejects an existing
entry, computes the basis-point fee, and records the post-fee locked
amount under the sender as owner. The ERC-20 transfers are external
calls whose failure reverts the whole transaction; they move no escrow
storage and are not modelled. -/
def escrowDeposit (s : EscrowState) (sender key token amount : Nat) :
    Except EscrowError EscrowState :=
  let entry := s.deposits key
  if entry.owner ≠ 0 then .error (.depositAlreadyExists key)
  else if ¬ amount > 0 then .error (.requireFail "amount zero")
  else if ¬ token ≠ 0 then .error (.requireFail "token zero")
  else
    let fee := amount * s.serviceFeeBps / 10000
    let locked := amount - fee
    if ¬ locked > 0 then .error (.requireFail "locked zero")
    else .ok { s with deposits := fun k =>
      if k = key then ⟨sender, token, locked, false⟩ else s.deposits k }

/-- The `withdraw(key, adminSignature)` entry point: requires an
existing, unreleased entry, the transaction sender to be the entry's
owner, and the admin signature to recover to `adminSigner`; then marks
the entry released (the token transfer to the owner is an external
call, not storage). -/
def escrowWithdraw (c : ChainCrypto) (s : EscrowState) (sender key sig : Nat) :
    Except EscrowError EscrowState :=
  let entry := s.deposits key
  if entry.owner = 0 then .error (.depositMissing key)
  else if entry.released then .error (.depositAlreadyReleased key)
  else if sender ≠ entry.owner then .error (.requireFail "unauthorized")
  else
    let digest := escrowWithdrawDigest c s key entry.owner entry.token entry.amountLocked
    match c.recover digest sig with
    | none => .error .invalidSignature
    | some signer =>
      if signer ≠ s.adminSigner then .error .invalidSignature
      else .ok { s with deposits := fun k =>
        if k = key then { entry with released := true } else s.deposits k }

/-- The `settle(key, recipient, ownerSignature)` entry point: requires an
existing, unreleased entry and a nonzero recipient, and the owner
signature to recover to the entry's recorded owner; then marks the entry
released (the transfer to the recipient is an external call). The
transaction sender is not inspected. -/
def escrowSettle (c : ChainCrypto) (s : EscrowState)
    (sender key recipient sig : Nat) : Except EscrowError EscrowState :=
  let entry := s.deposits key
  if entry.owner = 0 then .error (.depositMissing key)
  else if entry.released then .error (.depositAlreadyReleased key)
  else if ¬ recipient ≠ 0 then .error (.requireFail "recipient zero")
  else
    let digest := escrowSettleDigest c s key entry.owner entry.token recipient entry.amountLocked
    match c.recover digest sig with
    | none => .error .invalidSignature
    | some signer =>
      if signer ≠ entry.owner then .error .invalidSignature
      else .ok { s with deposits := fun k =>
        if k = key then { entry with released := true } else s.deposits k }

/-- A transaction against the escrow contract. -/
inductive EscrowCall where
  | deposit (sender key token amount : Nat)
  | withdraw (sender key sig : Nat)
  | settle (sender key recipient sig : Nat)

/-- One transaction step. -/
def escrowStep (c : ChainCrypto) (s : EscrowState) : EscrowCall → Except EscrowError EscrowState
  | .deposit sender key token amount => escrowDeposit s sender key token amount
  | .withdraw sender key sig => escrowWithdraw c s sender key sig
  | .settle sender key recipient sig => escrowSettle c s sender key recipient sig

/-- Execution of a transaction sequence; a reverted transaction leaves
storage unchanged. -/
def escrowExec (c : ChainCrypto) (s : EscrowState) : List EscrowCall → EscrowState
  | [] => s
  | call :: rest =>
    match escrowStep c s call with
    | .ok s1 => escrowExec c s1 rest
    | .error _ => escrowExec c s rest

/-- A key that is released with a nonzero owner stays so under any
transaction. -/
lemma escrowStep_preserves_released (c : ChainCrypto) (s s1 : EscrowState)
    (call : EscrowCall) (key : Nat)
    (h : (s.deposits key).owner ≠ 0 ∧ (s.deposits key).released = true)
    (hstep : escrowStep c s call = .ok s1) :
    (s1.deposits key).owner ≠ 0 ∧ (s1.deposits key).released = true := by
  cases call with
  | deposit sender k token amount =>
    by_cases hk : k = key
    · subst hk
      simp only [escrowStep, escrowDeposit] at hstep
      rw [if_pos h.1] at hstep
      exact absurd hstep (by simp)
    · simp only [escrowStep, escrowDeposit] at hstep
      split at hstep
      · exact absurd hstep (by simp)
      split at hstep
      · exact absurd hstep (by simp)
      split at hstep
      · exact absurd hstep (by simp)
      split at hstep
      · exact absurd hstep (by simp)
      · cases hstep
        simpa [Ne.symm hk] using h
  | withdraw sender k sig =>
    by_cases hk : k = key
    · subst hk
      simp only [escrowStep, escrowWithdraw] at hstep
      split at hstep
      · exact absurd hstep (by simp)
      rw [if_pos h.2] at hstep
      exact absurd hstep (by simp)
    · simp only [escrowStep, escrowWithdraw] at hstep
      split at hstep
      · exact absurd hstep (by simp)
      split at hstep
      · exact absurd hstep (by simp)
      split at hstep
      · exact absurd hstep (by simp)
      split at hstep
      · exact absurd hstep (by simp)
      split at hstep
      · exact absurd hstep (by simp)
      · cases hstep
        simpa [Ne.symm hk] using h
  | settle sender k recipient sig =>
    by_cases hk : k = key
    · subst hk
      simp only [escrowStep, escrowSettle] at hstep
      split at hstep
      · exact absurd hstep (by simp)
      rw [if_pos h.2] at hstep
      exact absurd hstep (by simp)
    · simp only [escrowStep, escrowSettle] at hstep
      split at hstep
      · exact absurd hstep (by simp)
      split at hstep
      · exact absurd hstep (by simp)
      split at hstep
      · exact absurd hstep (by simp)
      split at hstep
      · exact absurd hstep (by simp)
      split at hstep
      · exact absurd hstep (by simp)
      · cases hstep
        simpa [Ne.symm hk] using h

lemma escrowExec_preserves_released (c : ChainCrypto) (key : Nat) :
    ∀ (calls : List EscrowCall) (s : EscrowState),
      (s.deposits key).owner ≠ 0 ∧ (s.deposits key).released = true →
      ((escrowExec c s calls).deposits key).owner ≠ 0 ∧
        ((escrowExec c s calls).deposits key).released = true
  | [], s, h => h
  | call :: rest, s, h => by
    unfold escrowExec
    cases hstep : escrowStep c s call with
    | ok s1 =>
      exact escrowExec_preserves_released c key rest s1
        (escrowStep_preserves_released c s s1 call key h hstep)
    | error e =>
      exact escrowExec_preserves_released c key rest s h

/-- A successful `withdraw` or `settle` on `key` leaves the entry
released with its nonzero owner intact. -/
lemma escrow_release_success_state (c : ChainCrypto) (s s1 : EscrowState)
    (call : EscrowCall) (key : Nat)
    (hcall : (∃ sender sig, call = .withdraw sender key sig) ∨
      (∃ sender recipient sig, call = .settle sender key recipient sig))
    (hstep : escrowStep c s call = .ok s1) :
    (s1.deposits key).owner ≠ 0 ∧ (s1.deposits key).released = true := by
  rcases hcall with ⟨sender, sig, rfl⟩ | ⟨sender, recipient, sig, rfl⟩
  · by_cases howner : (s.deposits key).owner = 0
    · simp [escrowStep, escrowWithdraw, howner] at hstep
    · simp only [escrowStep, escrowWithdraw] at hstep
      rw [if_neg howner] at hstep
      split at hstep
      · exact absurd hstep (by simp)
      split at hstep
      · exact absurd hstep (by simp)
      split at hstep
      · exact absurd hstep (by simp)
      split at hstep
      · exact absurd hstep (by simp)
      · cases hstep
        simp only [if_pos rfl]
        exact ⟨howner, rfl⟩
  · by_cases howner : (s.deposits key).owner = 0
    · simp [escrowStep, escrowSettle, howner] at hstep
    · simp only [escrowStep, escrowSettle] at hstep
      rw [if_neg howner] at hstep
      split at hstep
      · exact absurd hstep (by simp)
      split at hstep
      · exact absurd hstep (by simp)
      split at hstep
      · exact absurd hstep (by simp)
      split at hstep
      · exact absurd hstep (by simp)
      · cases hstep
        simp only [if_pos rfl]
        exact ⟨howner, rfl⟩

/-- On a released entry with nonzero owner, `withdraw` and `settle` both
revert with `DepositAlreadyReleased`. -/
lemma escrow_released_blocks (c : ChainCrypto) (s : EscrowState) (key : Nat)
    (h : (s.deposits key).owner ≠ 0 ∧ (s.deposits key).released = true) :
    (∀ sender sig, escrowWithdraw c s sender key sig =
      .error (.depositAlreadyReleased key)) ∧
    (∀ sender recipient sig, escrowSettle c s sender key recipient sig =
      .error (.depositAlreadyReleased key)) := by
  constructor
  · intro sender sig
    simp only [escrowWithdraw]
    rw [if_neg (by simpa using h.1), if_pos h.2]
  · intro sender recipient sig
    simp only [escrowSettle]
    rw [if_neg (by simpa using h.1), if_pos h.2]

/-! ## Task service: data model and collaborators -/

/-- Task lifecycle status (`taskStatusSchema`). -/
inductive TaskStatus where
  | draft
  | active
  | finished
  | closed
  deriving DecidableEq, Repr

/-- Response lifecycle status (`responseStatusSchema`). -/
inductive ResponseStatus where
  | pending
  | approved
  | rejected
  deriving DecidableEq, Repr

/-- A persisted task row (`TaskRecord` of the task-db package). -/
structure TaskRecord where
  id : String
  title : String
  content : String
  owner : String
  created_at : Nat
  status : TaskStatus
  price : String
  token : Option String
  withdraw_signature : Option String
  deriving DecidableEq, Repr

/-- A persisted response row (`ResponseRecord` of the task-db package). -/
structure ResponseRecord where
  id : String
  task_id : String
  payload : String
  worker : String
  status : ResponseStatus
  created_at : Nat
  settlement : Option String
  settlement_signature : Option String
  deriving DecidableEq, Repr

/-- The observable world of a service call: the store contents, a count
of store writes attempted so far (consulted by the write-outcome
oracle), and a count of administrative-signer invocations. -/
structure World where
  tasks : List TaskRecord
  responses : List ResponseRecord
  writes : Nat
  signerCalls : Nat
  deriving DecidableEq, Repr

/-- A ledger entry as returned by `fetchDepositInfo`. -/
structure DepositInfo where
  owner : String
  token : String
  amountLocked : Nat
  released : Bool
  deriving DecidableEq, Repr

/-- Collaborator capabilities consumed by the service operations:
`verifyDetachedSignature`, `normalizeAddress` (both from the crypto
module), `taskDepositKey` and `fetchDepositInfo` (escrow ledger client),
the configured deposit network, `signWithdrawAuthorization`
(administrative signer), and an outcome oracle for successive store
writes (a failed write raises and leaves the store unchanged). -/
structure Env where
  verify : String → String → String → Bool
  normalize : String → String
  depositKey : String → Nat
  fetchDeposit : Nat → DepositInfo
  depositNetwork : String
  signWithdraw : Nat → String → String → Nat → String
  writeOk : Nat → Bool

/-- Failures crossing the service boundary: a `ServiceError` carrying an
HTTP status and taxonomy code, or a plain thrown exception. -/
inductive SvcError where
  | service (statusCode : Nat) (code : String) (message : String)
  | thrown (message : String)
  deriving DecidableEq, Repr

def ZERO_ADDRESS : String := "0x0000000000000000000000000000000000000000"

/-- JavaScript truthiness test on an optional string: `null`, `undefined`
and the empty string are falsy. -/
def jsFalsy : Option String → Bool
  | none => true
  | some s => s == ""

def findTask (w : World) (id : String) : Option TaskRecord :=
  w.tasks.find? (fun t => t.id == id)

def findResponse (w : World) (id : String) : Option ResponseRecord :=
  w.responses.find? (fun r => r.id == id)

def updateTaskList (tasks : List TaskRecord) (id : String) (f : TaskRecord → TaskRecord) :
    List TaskRecord :=
  tasks.map (fun t => if t.id == id then f t else t)

def updateResponseList (responses : List ResponseRecord) (id : String)
    (f : ResponseRecord → ResponseRecord) : List ResponseRecord :=
  responses.map (fun r => if r.id == id then f r else r)

/-- Modelled from the spec: `markTaskFunded(id, price, token)` of the
task-db package (implementation not under src/) — a single atomic
conditional write that persists the funded price/token, flips the task
status to `active`, and returns the updated record (null when the task
is missing). An infrastructure failure raises and leaves the store
unchanged. -/
def markTaskFunded (env : Env) (w : World) (id price token : String) :
    Except SvcError (Option TaskRecord) × World :=
  if env.writeOk w.writes then
    match findTask w id with
    | none => (.ok none, { w with writes := w.writes + 1 })
    | some _ =>
      let w2 := { w with
        tasks := updateTaskList w.tasks id
          (fun t => { t with price := price, token := some token, status := .active }),
        writes := w.writes + 1 }
      (.ok (findTask w2 id), w2)
  else (.error (.thrown "db write failed"), w)

/-- Modelled from the spec: `updateTaskStatus(id, status)` of the task-db
package (implementation not under src/) — a single atomic conditional
write of the task status, returning the updated record or null. -/
def updateTaskStatus (env : Env) (w : World) (id : String) (status : TaskStatus) :
    Except SvcError (Option TaskRecord) × World :=
  if env.writeOk w.writes then
    match findTask w id with
    | none => (.ok none, { w with writes := w.writes + 1 })
    | some _ =>
      let w2 := { w with
        tasks := updateTaskList w.tasks id (fun t => { t with status := status }),
        writes := w.writes + 1 }
      (.ok (findTask w2 id), w2)
  else (.error (.thrown "db write failed"), w)

/-- Modelled from the spec: `storeWithdrawSignature(id, sig)` of the
task-db package (implementation not under src/) — a single atomic write
of the cached withdraw authorization, returning the updated record or
null. -/
def storeWithdrawSignature (env : Env) (w : World) (id sig : String) :
    Except SvcError (Option TaskRecord) × World :=
  if env.writeOk w.writes then
    match findTask w id with
    | none => (.ok none, { w with writes := w.writes + 1 })
    | some _ =>
      let w2 := { w with
        tasks := updateTaskList w.tasks id (fun t => { t with withdraw_signature := some sig }),
        writes := w.writes + 1 }
      (.ok (findTask w2 id), w2)
  else (.error (.thrown "db write failed"), w)

/-- Modelled from the spec: `updateResponseStatus(responseId, status,
settlementBlob?, settlementSig?)` of the task-db package (implementation
not under src/) — a single atomic conditional write of the response
status and settlement artifacts, returning the updated record or null. -/
def updateResponseStatus (env : Env) (w : World) (id : String) (status : ResponseStatus)
    (settlement settlementSignature : Option String) :
    Except SvcError (Option ResponseRecord) × World :=
  if env.writeOk w.writes then
    match findResponse w id with
    | none => (.ok none, { w with writes := w.writes + 1 })
    | some _ =>
      let w2 := { w with
        responses := updateResponseList w.responses id
          (fun r => { r with
            status := status,
            settlement := settlement,
            settlement_signature := settlementSignature }),
        writes := w.writes + 1 }
      (.ok (findResponse w2 id), w2)
  else (.error (.thrown "db write failed"), w)

/-- The administrative signer call `signWithdrawAuthorization(config,
key, owner, token, amount)`, with the invocation counted on the world. -/
def signWithdrawAuthorization (env : Env) (w : World)
    (key : Nat) (owner token : String) (amount : Nat) : String × World :=
  (env.signWithdraw key owner token amount, { w with signerCalls := w.signerCalls + 1 })

/-! ## Task service: requests and signature payloads -/

/-- A `fundTask` request (`taskFundingSchema`). -/
structure TaskFundingRequest where
  taskId : String
  ownerAddress : String
  price : String
  token : String
  signature : String
  deriving DecidableEq, Repr

/-- A `cancelTask` request (`taskCancelSchema`). -/
structure TaskCancelRequest where
  taskId : String
  ownerAddress : String
  signature : String
  deriving DecidableEq, Repr

/-- A decision request (`decisionSchema` before its refinements). -/
structure DecisionRequest where
  responseId : String
  workerAddress : String
  ownerAddress : String
  price : String
  signature : String
  status : ResponseStatus
  encryptedSettlement : Option String
  settlementSignature : Option String
  deriving DecidableEq, Repr

def responseStatusString : ResponseStatus → String
  | .pending => "pending"
  | .approved => "approved"
  | .rejected => "rejected"

/-- Rendering of `input.field ?? null` in a signature payload. -/
def jopt : Option String → JVal
  | none => .jnull
  | some s => .jstr s

/-- Embedding of `taskFundingSignaturePayload`. -/
def taskFundingSignaturePayload (p : TaskFundingRequest) : String :=
  canonicalStringify (.jobj [("kind", .jstr "task:fund"), ("taskId", .jstr p.taskId),
    ("price", .jstr p.price), ("token", .jstr p.token)])

/-- Embedding of `taskCancelSignaturePayload`. -/
def taskCancelSignaturePayload (p : TaskCancelRequest) : String :=
  canonicalStringify (.jobj [("kind", .jstr "task:cancel"), ("taskId", .jstr p.taskId)])

/-- Embedding of `decisionSignaturePayload`. -/
def decisionSignaturePayload (p : DecisionRequest) : String :=
  canonicalStringify (.jobj [("kind", .jstr "task:decision"),
    ("responseId", .jstr p.responseId), ("workerAddress", .jstr p.workerAddress),
    ("price", .jstr p.price), ("status", .jstr (responseStatusString p.status)),
    ("encryptedSettlement", jopt p.encryptedSettlement),
    ("settlementSignature", jopt p.settlementSignature)])

/-- A parsed chain-qualified token identifier. -/
structure ParsedToken where
  network : String
  address : String
  deriving DecidableEq, Repr

/-- Character-level split on `:`, modelling `token.split(':')`. -/
def splitChars : List Char → List (List Char)
  | [] => [[]]
  | c :: cs =>
    let rest := splitChars cs
    if c = ':' then [] :: rest
    else match rest with
      | [] => [[c]]
      | r :: rs => (c :: r) :: rs

/-- Split a string on `:` (the separator is the single character, so a
character-level split is exact). -/
def splitOnColon (s : String) : List String :=
  (splitChars s.data).map String.mk

/-- ASCII lowercasing, modelling `toLowerCase()` on the network names in
scope. -/
def lowerStr (s : String) : String := String.mk (s.data.map Char.toLower)

/-- Embedding of `parseTokenIdentifier`: split on `:`, lowercase the
network, normalize the address; reject missing or empty parts (the
source throws a plain `Error` there). -/
def parseTokenIdentifier (env : Env) (token : String) : Option ParsedToken :=
  match splitOnColon token with
  | networkRaw :: address :: _ =>
    let network := lowerStr networkRaw
    if network = "" ∨ address = "" then none
    else some ⟨network, env.normalize address⟩
  | _ => none

/-- Decimal parse backing `BigInt(payload.price)`; the schemas restrict
prices to decimal digit strings. -/
def parsePrice (s : String) : Option Nat :=
  if s.data ≠ [] ∧ s.data.all Char.isDigit then
    some (s.data.foldl (fun acc c => acc * 10 + (c.toNat - 48)) 0)
  else none

def svcErr (statusCode : Nat) (code message : String) : SvcError :=
  .service statusCode code message

/-! ## Task service: operations -/

/-- Embedding of `fundTask` (task service): verify the owner signature
over the funding payload, look the task up, reject terminal statuses,
require the caller to be the owner, then reconcile against the escrow
ledger entry (existence, not released, owner, network, token, positive
amount, exact amount) and persist price/token via `markTaskFunded`. -/
def fundTask (env : Env) (w : World) (p : TaskFundingRequest) :
    Except SvcError TaskRecord × World :=
  if ¬ env.verify p.ownerAddress (taskFundingSignaturePayload p) p.signature then
    (.error (svcErr 401 "unauthorized" "Signature validation failed"), w)
  else match findTask w p.taskId with
  | none => (.error (svcErr 404 "not_found" "Task not found"), w)
  | some task =>
    if task.status = .finished ∨ task.status = .closed then
      (.error (svcErr 409 "conflict" "Task can no longer be funded"), w)
    else
      let ownerAddress := env.normalize p.ownerAddress
      if ownerAddress ≠ task.owner then
        (.error (svcErr 403 "forbidden" "Owner mismatch"), w)
      else
        let onChain := env.fetchDeposit (env.depositKey p.taskId)
        if onChain.owner = ZERO_ADDRESS then
          (.error (svcErr 400 "invalid_request" "Deposit not found on chain"), w)
        else if onChain.released then
          (.error (svcErr 409 "conflict" "Deposit already released on chain"), w)
        else if env.normalize onChain.owner ≠ ownerAddress then
          (.error (svcErr 400 "invalid_request" "On-chain owner mismatch"), w)
        else match parseTokenIdentifier env p.token with
        | none => (.error (.thrown "Invalid token identifier"), w)
        | some tokenInfo =>
          if tokenInfo.network ≠ env.depositNetwork then
            (.error (svcErr 400 "invalid_request" "Unsupported token network"), w)
          else if env.normalize onChain.token ≠ tokenInfo.address then
            (.error (svcErr 400 "invalid_request" "On-chain token mismatch"), w)
          else match parsePrice p.price with
          | none => (.error (.thrown "Cannot convert price to a BigInt"), w)
          | some expectedAmount =>
            if expectedAmount ≤ 0 then
              (.error (svcErr 400 "invalid_request" "Price must be greater than zero"), w)
            else if onChain.amountLocked ≠ expectedAmount then
              (.error (svcErr 400 "invalid_request" "On-chain amount mismatch"), w)
            else match markTaskFunded env w p.taskId p.price p.token with
            | (.error e, w1) => (.error e, w1)
            | (.ok none, w1) =>
              (.error (svcErr 500 "internal_error" "Failed to update task funding info"), w1)
            | (.ok (some updated), w1) => (.ok updated, w1)

/-- Embedding of `decideOnResponse` (task service): status sanity, look
up the response and its task, require funding, owner and worker
identity, exact price string, settlement blob when approving; verify the
decision signature last; persist the decision, and on approval flip the
parent task to `finished`. -/
def decideOnResponse (env : Env) (w : World) (p : DecisionRequest) :
    Except SvcError ResponseRecord × World :=
  if p.status = .pending then
    (.error (svcErr 400 "invalid_request" "Status must be approved or rejected"), w)
  else match findResponse w p.responseId with
  | none => (.error (svcErr 404 "not_found" "Response not found"), w)
  | some response =>
    if response.status ≠ .pending then
      (.error (svcErr 409 "conflict" "Response already processed"), w)
    else match findTask w response.task_id with
    | none => (.error (svcErr 404 "not_found" "Task missing for response"), w)
    | some task =>
      if task.token = none ∨ task.price = "0" then
        (.error (svcErr 409 "conflict" "Task not funded"), w)
      else if env.normalize p.ownerAddress ≠ task.owner then
        (.error (svcErr 403 "forbidden" "Owner mismatch"), w)
      else if env.normalize p.workerAddress ≠ response.worker then
        (.error (svcErr 403 "forbidden" "Worker mismatch"), w)
      else if p.price ≠ task.price then
        (.error (svcErr 400 "invalid_request" "Price mismatch"), w)
      else if p.status = .approved ∧ jsFalsy p.encryptedSettlement then
        (.error (svcErr 400 "invalid_request"
          "encryptedSettlement required when approving response"), w)
      else if ¬ env.verify p.ownerAddress (decisionSignaturePayload p) p.signature then
        (.error (svcErr 401 "unauthorized" "Signature validation failed"), w)
      else
        let settlement := if p.status = .approved then p.encryptedSettlement else none
        let settlementSignature := if p.status = .approved then p.settlementSignature else none
        match updateResponseStatus env w p.responseId p.status settlement settlementSignature with
        | (.error e, w1) => (.error e, w1)
        | (.ok none, w1) =>
          (.error (svcErr 500 "internal_error" "Failed to update response"), w1)
        | (.ok (some updated), w1) =>
          if p.status = .approved then
            match updateTaskStatus env w1 task.id .finished with
            | (.error e, w2) => (.error e, w2)
            | (.ok _, w2) => (.ok updated, w2)
          else (.ok updated, w1)

/-- The decision endpoint as routed: `decisionSchema`'s refinements
(status must not be pending; approving requires a settlement signature
and an encrypted settlement blob — a zod failure is mapped to a 400
`invalid_request` by the app error handler) followed by
`decideOnResponse`. -/
def decisionRoute (env : Env) (w : World) (p : DecisionRequest) :
    Except SvcError ResponseRecord × World :=
  if p.status = .pending then
    (.error (svcErr 400 "invalid_request" "status must be approved or rejected"), w)
  else if p.status = .approved ∧ jsFalsy p.settlementSignature then
    (.error (svcErr 400 "invalid_request"
      "settlementSignature required when approving response"), w)
  else if p.status = .approved ∧ jsFalsy p.encryptedSettlement then
    (.error (svcErr 400 "invalid_request"
      "encryptedSettlement required when approving response"), w)
  else decideOnResponse env w p

/-- Embedding of `cancelTask` (task service): verify the owner signature
over the cancel payload, look the task up, require funding, owner
identity, and non-terminal status; return a `closed` task with a cached
withdraw authorization unchanged; otherwise, from `active`, obtain (or
reuse) the admin withdraw authorization, persist the `closed` status and
then the signature, in two store writes. -/
def cancelTask (env : Env) (w : World) (p : TaskCancelRequest) :
    Except SvcError TaskRecord × World :=
  if ¬ env.verify p.ownerAddress (taskCancelSignaturePayload p) p.signature then
    (.error (svcErr 401 "unauthorized" "Signature validation failed"), w)
  else match findTask w p.taskId with
  | none => (.error (svcErr 404 "not_found" "Task not found"), w)
  | some task =>
    if task.token = none ∨ task.price = "0" then
      (.error (svcErr 409 "conflict" "Task not funded"), w)
    else
      let ownerAddress := env.normalize p.ownerAddress
      if ownerAddress ≠ task.owner then
        (.error (svcErr 403 "forbidden" "Owner mismatch"), w)
      else if task.status = .finished then
        (.error (svcErr 409 "conflict" "Task already settled"), w)
      else if task.status = .closed ∧ ¬ jsFalsy task.withdraw_signature then
        (.ok task, w)
      else if task.status ≠ .active then
        (.error (svcErr 409 "conflict" "Task must be active to cancel"), w)
      else match task.token with
      | none => (.error (.thrown "unreachable: token checked above"), w)
      | some tok =>
        match parseTokenIdentifier env tok with
        | none => (.error (.thrown "Invalid token identifier"), w)
        | some tokenInfo =>
          match parsePrice task.price with
          | none => (.error (.thrown "Cannot convert price to a BigInt"), w)
          | some amount =>
            if amount ≤ 0 then
              (.error (svcErr 409 "conflict" "Task funding amount invalid"), w)
            else
              let depositKey := env.depositKey task.id
              let sigw : String × World :=
                match task.withdraw_signature with
                | some s => (s, w)
                | none =>
                  signWithdrawAuthorization env w depositKey ownerAddress tokenInfo.address amount
              match updateTaskStatus env sigw.2 p.taskId .closed with
              | (.error e, w2) => (.error e, w2)
              | (.ok _, w2) =>
                match storeWithdrawSignature env w2 p.taskId sigw.1 with
                | (.error e, w3) => (.error e, w3)
                | (.ok none, w3) =>
                  (.error (svcErr 500 "internal_error" "Failed to persist withdraw signature"), w3)
                | (.ok (some signed), w3) => (.ok signed, w3)

/-! ## Store lemmas -/

lemma find?_updateTaskList (tasks : List TaskRecord) (id : String)
    (f : TaskRecord → TaskRecord) (hf : ∀ t, (f t).id = t.id) :
    (updateTaskList tasks id f).find? (fun t => t.id == id) =
      (tasks.find? (fun t => t.id == id)).map f := by
  induction tasks with
  | nil => rfl
  | cons t rest ih =>
    unfold updateTaskList
    simp only [List.map_cons]
    by_cases h : (t.id == id) = true
    · have h2 : ((f t).id == id) = true := by rw [hf]; exact h
      rw [if_pos h]
      simp only [List.find?, h, h2]
      rfl
    · have h1 : (t.id == id) = false := by simpa using h
      have h2 : ((f t).id == id) = false := by rw [hf]; exact h1
      rw [if_neg h]
      simp only [List.find?, h1, h2]
      exact ih

lemma find?_updateResponseList (responses : List ResponseRecord) (id : String)
    (f : ResponseRecord → ResponseRecord) (hf : ∀ r, (f r).id = r.id) :
    (updateResponseList responses id f).find? (fun r => r.id == id) =
      (responses.find? (fun r => r.id == id)).map f := by
  induction responses with
  | nil => rfl
  | cons r rest ih =>
    unfold updateResponseList
    simp only [List.map_cons]
    by_cases h : (r.id == id) = true
    · have h2 : ((f r).id == id) = true := by rw [hf]; exact h
      rw [if_pos h]
      simp only [List.find?, h, h2]
      rfl
    · have h1 : (r.id == id) = false := by simpa using h
      have h2 : ((f r).id == id) = false := by rw [hf]; exact h1
      rw [if_neg h]
      simp only [List.find?, h1, h2]
      exact ih

lemma findTask_id {w : World} {id : String} {t : TaskRecord}
    (h : findTask w id = some t) : t.id = id := by
  have := List.find?_some h
  simpa using this

lemma findResponse_id {w : World} {id : String} {r : ResponseRecord}
    (h : findResponse w id = some r) : r.id = id := by
  have := List.find?_some h
  simpa using this

lemma markTaskFunded_found (env : Env) (w : World) (id price token : String)
    (t : TaskRecord) (hw : env.writeOk w.writes = true) (ht : findTask w id = some t) :
    markTaskFunded env w id price token =
      (.ok (some { t with price := price, token := some token, status := .active }),
       { w with
         tasks := updateTaskList w.tasks id
           (fun x => { x with price := price, token := some token, status := .active }),
         writes := w.writes + 1 }) := by
  have hfind : findTask
      { w with
        tasks := updateTaskList w.tasks id
          (fun x => { x with price := price, token := some token, status := .active }),
        writes := w.writes + 1 } id =
      some { t with price := price, token := some token, status := .active } := by
    unfold findTask
    dsimp only
    rw [find?_updateTaskList w.tasks id
      (fun x => { x with price := price, token := some token, status := .active })
      (fun x => rfl)]
    rw [show w.tasks.find? (fun x => x.id == id) = some t from ht]
    rfl
  unfold markTaskFunded
  rw [hw, if_pos rfl, ht]
  dsimp only
  rw [hfind]

lemma updateTaskStatus_found (env : Env) (w : World) (id : String) (status : TaskStatus)
    (t : TaskRecord) (hw : env.writeOk w.writes = true) (ht : findTask w id = some t) :
    updateTaskStatus env w id status =
      (.ok (some { t with status := status }),
       { w with
         tasks := updateTaskList w.tasks id (fun x => { x with status := status }),
         writes := w.writes + 1 }) := by
  have hfind : findTask
      { w with
        tasks := updateTaskList w.tasks id (fun x => { x with status := status }),
        writes := w.writes + 1 } id = some { t with status := status } := by
    unfold findTask
    dsimp only
    rw [find?_updateTaskList w.tasks id (fun x => { x with status := status })
      (fun x => rfl)]
    rw [show w.tasks.find? (fun x => x.id == id) = some t from ht]
    rfl
  unfold updateTaskStatus
  rw [hw, if_pos rfl, ht]
  dsimp only
  rw [hfind]

lemma storeWithdrawSignature_found (env : Env) (w : World) (id sig : String)
    (t : TaskRecord) (hw : env.writeOk w.writes = true) (ht : findTask w id = some t) :
    storeWithdrawSignature env w id sig =
      (.ok (some { t with withdraw_signature := some sig }),
       { w with
         tasks := updateTaskList w.tasks id (fun x => { x with withdraw_signature := some sig }),
         writes := w.writes + 1 }) := by
  have hfind : findTask
      { w with
        tasks := updateTaskList w.tasks id (fun x => { x with withdraw_signature := some sig }),
        writes := w.writes + 1 } id = some { t with withdraw_signature := some sig } := by
    unfold findTask
    dsimp only
    rw [find?_updateTaskList w.tasks id (fun x => { x with withdraw_signature := some sig })
      (fun x => rfl)]
    rw [show w.tasks.find? (fun x => x.id == id) = some t from ht]
    rfl
  unfold storeWithdrawSignature
  rw [hw, if_pos rfl, ht]
  dsimp only
  rw [hfind]

lemma updateResponseStatus_found (env : Env) (w : World) (id : String)
    (status : ResponseStatus) (settlement settlementSignature : Option String)
    (r : ResponseRecord) (hw : env.writeOk w.writes = true)
    (hr : findResponse w id = some r) :
    updateResponseStatus env w id status settlement settlementSignature =
      (.ok (some { r with
        status := status,
        settlement := settlement,
        settlement_signature := settlementSignature }),
       { w with
         responses := updateResponseList w.responses id
           (fun x => { x with
             status := status,
             settlement := settlement,
             settlement_signature := settlementSignature }),
         writes := w.writes + 1 }) := by
  have hfind : findResponse
      { w with
        responses := updateResponseList w.responses id
          (fun x => { x with
            status := status,
            settlement := settlement,
            settlement_signature := settlementSignature }),
        writes := w.writes + 1 } id =
      some { r with
        status := status,
        settlement := settlement,
        settlement_signature := settlementSignature } := by
    unfold findResponse
    dsimp only
    rw [find?_updateResponseList w.responses id
      (fun x => { x with
        status := status,
        settlement := settlement,
        settlement_signature := settlementSignature })
      (fun x => rfl)]
    rw [show w.responses.find? (fun x => x.id == id) = some r from hr]
    rfl
  unfold updateResponseStatus
  rw [hw, if_pos rfl, hr]
  dsimp only
  rw [hfind]

/-! ## Claim theorems: digests and canonicalization -/

/-- C2: for every contract address, ledger key, owner address, token
address, amount and (SETTLE) recipient, the WITHDRAW and SETTLE digest
pre-images computed by the off-chain builders (`buildWithdrawDataHash`,
`buildSettleDataHash`) are byte-for-byte equal to the pre-images hashed
by the on-chain `_withdrawDigest` and `_settleDigest` before the
personal-sign envelope is applied. -/
theorem digest_preimages_offchain_onchain_agree :
    ∀ contractAddress key owner token recipient amount : Nat,
      buildWithdrawDataHashPreimage contractAddress key owner token amount =
        escrowWithdrawDigestPreimage contractAddress key owner token amount ∧
      buildSettleDataHashPreimage contractAddress key owner token recipient amount =
        escrowSettleDigestPreimage contractAddress key owner token recipient amount :=
  fun _ _ _ _ _ _ => ⟨rfl, rfl⟩

/-- C6: the canonical string encoding is invariant under the insertion
order of map keys (any two entry lists that are permutations of each
other, with pairwise-distinct keys, encode to the identical string);
keys bound to undefined are dropped from the encoding; keys bound to an
explicit null survive canonicalization bound to null. -/
theorem canonical_encoding_order_independent :
    (∀ e₁ e₂ : List (String × JVal), e₁.Perm e₂ → (e₁.map Prod.fst).Nodup →
      canonicalStringify (.jobj e₁) = canonicalStringify (.jobj e₂)) ∧
    (∀ (k : String) (l₁ l₂ : List (String × JVal)),
      canonicalStringify (.jobj (l₁ ++ (k, .jundef) :: l₂)) =
        canonicalStringify (.jobj (l₁ ++ l₂))) ∧
    (∀ (k : String) (entries : List (String × JVal)), (k, .jnull) ∈ entries →
      (k, .jnull) ∈ canonObjEntries entries) := by
  refine ⟨?_, ?_, ?_⟩
  · intro e₁ e₂ hp hn
    unfold canonicalStringify
    rw [canonicalize_jobj_perm e₁ e₂ hp hn]
  · intro k l₁ l₂
    unfold canonicalStringify
    rw [canonicalize_jobj, canonicalize_jobj]
    unfold canonObjEntries
    rw [show (l₁ ++ (k, JVal.jundef) :: l₂).filter (fun p => !(isUndef p.2)) =
      (l₁ ++ l₂).filter (fun p => !(isUndef p.2)) by
        simp [List.filter_append, List.filter_cons, isUndef]]
  · intro k entries hmem
    unfold canonObjEntries
    refine List.mem_map.mpr ⟨(k, .jnull), ?_, ?_⟩
    · exact (sortEntries_perm _).mem_iff.mpr
        (List.mem_filter.mpr ⟨hmem, by simp [isUndef]⟩)
    · simp [canonicalize]

/-- Witness for C6 at concrete inputs. -/
theorem canonical_encoding_order_independent_witness :
    ([(("b" : String), JVal.jnum 1), ("a", JVal.jstr "x")].Perm
      [(("a" : String), JVal.jstr "x"), ("b", JVal.jnum 1)]) ∧
    (([(("b" : String), JVal.jnum 1), ("a", JVal.jstr "x")].map Prod.fst).Nodup) ∧
    canonicalStringify (.jobj [("b", .jnum 1), ("a", .jstr "x")]) =
      canonicalStringify (.jobj [("a", .jstr "x"), ("b", .jnum 1)]) ∧
    ((("k" : String), JVal.jnull) ∈ canonObjEntries [("k", JVal.jnull)]) := by
  have hperm : [(("b" : String), JVal.jnum 1), ("a", JVal.jstr "x")].Perm
      [(("a" : String), JVal.jstr "x"), ("b", JVal.jnum 1)] :=
    List.Perm.swap ("a", JVal.jstr "x") ("b", JVal.jnum 1) []
  have hnodup : ([(("b" : String), JVal.jnum 1), ("a", JVal.jstr "x")].map Prod.fst).Nodup := by
    simp
  refine ⟨hperm, hnodup, ?_, ?_⟩
  · exact canonical_encoding_order_independent.1 _ _ hperm hnodup
  · exact canonical_encoding_order_independent.2.2 "k" [("k", JVal.jnull)]
      (List.mem_singleton.mpr rfl)

/-! ## Claim theorems: escrow contract -/

/-- C3: a release happens at most once per ledger entry — after any
successful `withdraw` or `settle` on a key, every subsequent `withdraw`
or `settle` call on that key (after any further transaction sequence)
reverts with `DepositAlreadyReleased`. -/
theorem escrow_release_at_most_once (c : ChainCrypto) (s s1 : EscrowState)
    (call : EscrowCall) (key : Nat)
    (hcall : (∃ sender sig, call = .withdraw sender key sig) ∨
      (∃ sender recipient sig, call = .settle sender key recipient sig))
    (hstep : escrowStep c s call = .ok s1) :
    ∀ (rest : List EscrowCall) (sender sig recipient : Nat),
      escrowWithdraw c (escrowExec c s1 rest) sender key sig =
        .error (.depositAlreadyReleased key) ∧
      escrowSettle c (escrowExec c s1 rest) sender key recipient sig =
        .error (.depositAlreadyReleased key) := by
  intro rest sender sig recipient
  have h1 := escrow_release_success_state c s s1 call key hcall hstep
  have h2 := escrowExec_preserves_released c key rest s1 h1
  have h3 := escrow_released_blocks c (escrowExec c s1 rest) key h2
  exact ⟨h3.1 sender sig, h3.2 sender recipient sig⟩

/-- Concrete chain crypto for witnesses: every signature recovers to
address 7. -/
def chainW : ChainCrypto := ⟨fun _ => 0, fun _ _ => some 7⟩

/-- Concrete escrow state: admin signer 7, one unreleased deposit under
key 5 owned by 3 in token 9 for 100 units. -/
def escrowW0 : EscrowState :=
  ⟨1, 7, 2, 0, fun k => if k = 5 then ⟨3, 9, 100, false⟩ else emptyDeposit⟩

/-- The state after the owner (3) successfully withdraws under key 5. -/
def escrowW1 : EscrowState :=
  { escrowW0 with deposits := fun k =>
    if k = 5 then { escrowW0.deposits 5 with released := true } else escrowW0.deposits k }

/-- Witness for C3: after a successful withdraw on key 5 and a further
(reverting) deposit attempt, both withdraw and settle on key 5 revert
with `DepositAlreadyReleased`. -/
theorem escrow_release_at_most_once_witness :
    escrowStep chainW escrowW0 (.withdraw 3 5 0) = .ok escrowW1 ∧
    escrowWithdraw chainW (escrowExec chainW escrowW1 [.deposit 4 5 9 100]) 3 5 0 =
      .error (.depositAlreadyReleased 5) ∧
    escrowSettle chainW (escrowExec chainW escrowW1 [.deposit 4 5 9 100]) 3 5 8 0 =
      .error (.depositAlreadyReleased 5) :=
  ⟨rfl,
    escrow_release_at_most_once chainW escrowW0 escrowW1 (.withdraw 3 5 0) 5
      (Or.inl ⟨3, 0, rfl⟩) rfl [.deposit 4 5 9 100] 3 0 8⟩

/-- C10: `withdraw` restricts the caller beyond signature verification —
with an existing unreleased entry and a signature recovering to the
admin signer, it still reverts with `require(msg.sender == entry.owner)`
whenever the sender is not the recorded owner; `settle` never inspects
the sender, so any two callers observe the same outcome. -/
theorem withdraw_sender_restricted_settle_not :
    (∀ (c : ChainCrypto) (s : EscrowState) (sender key sig : Nat),
      (s.deposits key).owner ≠ 0 →
      (s.deposits key).released = false →
      sender ≠ (s.deposits key).owner →
      c.recover (escrowWithdrawDigest c s key (s.deposits key).owner
        (s.deposits key).token (s.deposits key).amountLocked) sig = some s.adminSigner →
      escrowWithdraw c s sender key sig = .error (.requireFail "unauthorized")) ∧
    (∀ (c : ChainCrypto) (s : EscrowState) (sender1 sender2 key recipient sig : Nat),
      escrowSettle c s sender1 key recipient sig =
        escrowSettle c s sender2 key recipient sig) := by
  constructor
  · intro c s sender key sig howner hrel hsender _
    unfold escrowWithdraw
    rw [if_neg howner, if_neg (by simp [hrel]), if_pos hsender]
  · intro c s sender1 sender2 key recipient sig
    rfl

/-- Witness for C10 at a concrete state: sender 4 is not the owner 3,
the signature recovers to the admin signer 7, and withdraw still
reverts unauthorized. -/
theorem withdraw_sender_restricted_settle_not_witness :
    (escrowW0.deposits 5).owner ≠ 0 ∧
    (escrowW0.deposits 5).released = false ∧
    (4 : Nat) ≠ (escrowW0.deposits 5).owner ∧
    chainW.recover (escrowWithdrawDigest chainW escrowW0 5 (escrowW0.deposits 5).owner
      (escrowW0.deposits 5).token (escrowW0.deposits 5).amountLocked) 0 =
      some escrowW0.adminSigner ∧
    escrowWithdraw chainW escrowW0 4 5 0 = .error (.requireFail "unauthorized") :=
  ⟨by decide, by decide, by decide, rfl,
    withdraw_sender_restricted_settle_not.1 chainW escrowW0 4 5 0
      (by decide) (by decide) (by decide) rfl⟩

/-! ## Claim theorems: task service -/

/-- C5 (amended): `fundTask` rejects by status alone, with `conflict`
and no store change, exactly when the task is `finished` or `closed`;
the ledger is irrelevant to this rejection. (An `active` task is not
rejected by status: see the counterexample.) -/
theorem fundTask_terminal_status_conflict (env : Env) (w : World)
    (p : TaskFundingRequest) (task : TaskRecord)
    (hv : env.verify p.ownerAddress (taskFundingSignaturePayload p) p.signature = true)
    (ht : findTask w p.taskId = some task)
    (hs : task.status = .finished ∨ task.status = .closed) :
    fundTask env w p = (.error (svcErr 409 "conflict" "Task can no longer be funded"), w) := by
  unfold fundTask
  rw [hv, if_neg (by simp)]
  rw [ht]
  dsimp only
  rw [if_pos hs]

/-- Concrete collaborator environment for service-level witnesses:
signatures always verify, addresses are already normalized, the ledger
holds a matching unreleased deposit, every store write succeeds. -/
def envStd : Env :=
  { verify := fun _ _ _ => true
    normalize := fun a => a
    depositKey := fun _ => 1
    fetchDeposit := fun _ => ⟨"0xOwner", "0xTok", 100, false⟩
    depositNetwork := "base"
    signWithdraw := fun _ _ _ _ => "0xadminsig"
    writeOk := fun _ => true }

/-- An active funded task. -/
def taskActive : TaskRecord :=
  ⟨"t1", "title", "content", "0xOwner", 0, .active, "50", some "base:0xTok", none⟩

/-- A closed task carrying a cached withdraw authorization. -/
def taskClosed : TaskRecord :=
  ⟨"t2", "title", "content", "0xOwner", 0, .closed, "50", some "base:0xTok", some "0xadminsig"⟩

def wActive : World := ⟨[taskActive], [], 0, 0⟩

def wClosed : World := ⟨[taskClosed], [], 0, 0⟩

def fundReq : TaskFundingRequest := ⟨"t1", "0xOwner", "100", "base:0xTok", "sig"⟩

def fundReqClosed : TaskFundingRequest := ⟨"t2", "0xOwner", "100", "base:0xTok", "sig"⟩

/-- The record `fundTask` persists for `fundReq` on `taskActive`. -/
def taskActiveFunded : TaskRecord :=
  ⟨"t1", "title", "content", "0xOwner", 0, .active, "100", some "base:0xTok", none⟩

/-- Counterexample for C5: `fundTask` on a task whose status is `active`
does not fail with `conflict` — with an agreeing ledger entry it
succeeds and overwrites the stored price and token. -/
theorem fundTask_active_refund_succeeds_cex :
    taskActive.status = TaskStatus.active ∧
    findTask wActive "t1" = some taskActive ∧
    (fundTask envStd wActive fundReq).1 = .ok taskActiveFunded ∧
    findTask (fundTask envStd wActive fundReq).2 "t1" = some taskActiveFunded := by
  refine ⟨rfl, rfl, ?_, ?_⟩ <;> rfl

/-- Witness for C5 (amended) at a concrete closed task. -/
theorem fundTask_terminal_status_conflict_witness :
    envStd.verify fundReqClosed.ownerAddress
      (taskFundingSignaturePayload fundReqClosed) fundReqClosed.signature = true ∧
    findTask wClosed "t2" = some taskClosed ∧
    (taskClosed.status = .finished ∨ taskClosed.status = .closed) ∧
    fundTask envStd wClosed fundReqClosed =
      (.error (svcErr 409 "conflict" "Task can no longer be funded"), wClosed) :=
  ⟨rfl, rfl, Or.inr rfl,
    fundTask_terminal_status_conflict envStd wClosed fundReqClosed taskClosed
      rfl rfl (Or.inr rfl)⟩

/-- C7: cancelling a `closed` task that carries a cached (non-empty)
withdraw authorization, with a valid owner signature on a funded task,
returns the task record unchanged and leaves the world untouched — no
store write and no administrative-signer invocation. -/
theorem cancelTask_idempotent_on_closed (env : Env) (w : World) (p : TaskCancelRequest)
    (task : TaskRecord) (s : String)
    (hv : env.verify p.ownerAddress (taskCancelSignaturePayload p) p.signature = true)
    (ht : findTask w p.taskId = some task)
    (htok : task.token ≠ none) (hpr : task.price ≠ "0")
    (ho : env.normalize p.ownerAddress = task.owner)
    (hst : task.status = .closed)
    (hsig : task.withdraw_signature = some s) (hne : s ≠ "") :
    cancelTask env w p = (.ok task, w) := by
  unfold cancelTask
  rw [hv, if_neg (by simp)]
  rw [ht]
  dsimp only
  rw [if_neg (by simp [htok, hpr])]
  rw [if_neg (by simp [ho])]
  rw [if_neg (by simp [hst])]
  rw [if_pos ⟨hst, by simp [jsFalsy, hsig, hne]⟩]

def cancelReqClosed : TaskCancelRequest := ⟨"t2", "0xOwner", "sig"⟩

/-- Witness for C7: cancelling the concrete closed task re-returns it
with the world unchanged. -/
theorem cancelTask_idempotent_on_closed_witness :
    envStd.verify cancelReqClosed.ownerAddress
      (taskCancelSignaturePayload cancelReqClosed) cancelReqClosed.signature = true ∧
    findTask wClosed "t2" = some taskClosed ∧
    taskClosed.token ≠ none ∧
    taskClosed.price ≠ "0" ∧
    envStd.normalize cancelReqClosed.ownerAddress = taskClosed.owner ∧
    taskClosed.status = .closed ∧
    taskClosed.withdraw_signature = some "0xadminsig" ∧
    ("0xadminsig" : String) ≠ "" ∧
    cancelTask envStd wClosed cancelReqClosed = (.ok taskClosed, wClosed) :=
  ⟨rfl, rfl, by decide, by decide, rfl, rfl, rfl, by decide,
    cancelTask_idempotent_on_closed envStd wClosed cancelReqClosed taskClosed "0xadminsig"
      rfl rfl (by decide) (by decide) rfl rfl rfl (by decide)⟩

/-- Outcome code of a service result, for stating error-taxonomy facts. -/
def errorCode : Except SvcError TaskRecord → Option String
  | .error (.service _ c _) => some c
  | .error (.thrown _) => none
  | .ok _ => none

/-- Ledger reconciliation behaviour of `fundTask` once the signature,
task lookup, status and owner checks have passed: a missing entry is
`invalid_request`; a released entry is `conflict`; an owner, token or
amount that disagrees with the signed request is `invalid_request`, each
without touching the store; and only on full agreement does it persist
the signed price/token and flip the status to `active`. -/
def FundTaskLedgerSpec (env : Env) (w : World) (p : TaskFundingRequest)
    (task : TaskRecord) : Prop :=
  let dep := env.fetchDeposit (env.depositKey p.taskId)
  (dep.owner = ZERO_ADDRESS →
    fundTask env w p =
      (.error (svcErr 400 "invalid_request" "Deposit not found on chain"), w)) ∧
  (dep.owner ≠ ZERO_ADDRESS → dep.released = true →
    fundTask env w p =
      (.error (svcErr 409 "conflict" "Deposit already released on chain"), w)) ∧
  (dep.owner ≠ ZERO_ADDRESS → dep.released = false →
    env.normalize dep.owner ≠ task.owner →
    fundTask env w p =
      (.error (svcErr 400 "invalid_request" "On-chain owner mismatch"), w)) ∧
  (∀ ti : ParsedToken, dep.owner ≠ ZERO_ADDRESS → dep.released = false →
    env.normalize dep.owner = task.owner →
    parseTokenIdentifier env p.token = some ti →
    ti.network = env.depositNetwork →
    env.normalize dep.token ≠ ti.address →
    fundTask env w p =
      (.error (svcErr 400 "invalid_request" "On-chain token mismatch"), w)) ∧
  (∀ (ti : ParsedToken) (n : Nat), dep.owner ≠ ZERO_ADDRESS → dep.released = false →
    env.normalize dep.owner = task.owner →
    parseTokenIdentifier env p.token = some ti →
    ti.network = env.depositNetwork →
    env.normalize dep.token = ti.address →
    parsePrice p.price = some n → 0 < n →
    dep.amountLocked ≠ n →
    fundTask env w p =
      (.error (svcErr 400 "invalid_request" "On-chain amount mismatch"), w)) ∧
  (∀ (ti : ParsedToken) (n : Nat), dep.owner ≠ ZERO_ADDRESS → dep.released = false →
    env.normalize dep.owner = task.owner →
    parseTokenIdentifier env p.token = some ti →
    ti.network = env.depositNetwork →
    env.normalize dep.token = ti.address →
    parsePrice p.price = some n → 0 < n →
    dep.amountLocked = n →
    env.writeOk w.writes = true →
    fundTask env w p =
      (.ok { task with price := p.price, token := some p.token, status := .active },
       { w with
         tasks := updateTaskList w.tasks p.taskId
           (fun x => { x with price := p.price, token := some p.token, status := .active }),
         writes := w.writes + 1 }))

/-- C1 (amended): for a fund request with a valid owner signature on an
existing task that is neither finished nor closed, by a caller whose
normalized address is the task owner, `fundTask` reconciles against the
escrow ledger entry as `FundTaskLedgerSpec` states: missing entry fails
with `invalid_request`, released entry fails with `conflict`, a
disagreeing recorded owner, token or locked amount fails with
`invalid_request`, and only full agreement persists the signed
price/token and flips the status to `active`. -/
theorem fundTask_escrow_reconciliation (env : Env) (w : World)
    (p : TaskFundingRequest) (task : TaskRecord)
    (hv : env.verify p.ownerAddress (taskFundingSignaturePayload p) p.signature = true)
    (ht : findTask w p.taskId = some task)
    (hstat : ¬(task.status = .finished ∨ task.status = .closed))
    (howner : env.normalize p.ownerAddress = task.owner) :
    FundTaskLedgerSpec env w p task := by
  unfold FundTaskLedgerSpec
  refine ⟨?_, ?_, ?_, ?_, ?_, ?_⟩
  · intro h0
    unfold fundTask
    rw [hv, if_neg (by simp), ht]
    dsimp only
    rw [if_neg hstat, howner, if_neg (by simp), if_pos h0]
  · intro h0 h1
    unfold fundTask
    rw [hv, if_neg (by simp), ht]
    dsimp only
    rw [if_neg hstat, howner, if_neg (by simp), if_neg h0, if_pos h1]
  · intro h0 h1 h2
    unfold fundTask
    rw [hv, if_neg (by simp), ht]
    dsimp only
    rw [if_neg hstat, howner, if_neg (by simp), if_neg h0, if_neg (by simp [h1]),
      if_pos h2]
  · intro ti h0 h1 h2 hti hnet h3
    unfold fundTask
    rw [hv, if_neg (by simp), ht]
    dsimp only
    rw [if_neg hstat, howner, if_neg (by simp), if_neg h0, if_neg (by simp [h1]),
      if_neg (by simp [h2]), hti]
    dsimp only
    rw [if_neg (by simp [hnet]), if_pos h3]
  · intro ti n h0 h1 h2 hti hnet h3 hn hpos h4
    unfold fundTask
    rw [hv, if_neg (by simp), ht]
    dsimp only
    rw [if_neg hstat, howner, if_neg (by simp), if_neg h0, if_neg (by simp [h1]),
      if_neg (by simp [h2]), hti]
    dsimp only
    rw [if_neg (by simp [hnet]), if_neg (by simp [h3]), hn]
    dsimp only
    rw [if_neg (by omega), if_pos h4]
  · intro ti n h0 h1 h2 hti hnet h3 hn hpos h4 hw
    unfold fundTask
    rw [hv, if_neg (by simp), ht]
    dsimp only
    rw [if_neg hstat, howner, if_neg (by simp), if_neg h0, if_neg (by simp [h1]),
      if_neg (by simp [h2]), hti]
    dsimp only
    rw [if_neg (by simp [hnet]), if_neg (by simp [h3]), hn]
    dsimp only
    rw [if_neg (by omega), if_neg (by simp [h4])]
    rw [markTaskFunded_found env w p.taskId p.price p.token task hw ht]

/-- Environment whose escrow ledger has no deposit entry (zero owner). -/
def envMissing : Env :=
  { envStd with fetchDeposit := fun _ => ⟨ZERO_ADDRESS, "0xTok", 100, false⟩ }

/-- A draft task awaiting funding. -/
def taskDraft : TaskRecord :=
  ⟨"t3", "title", "content", "0xOwner", 0, .draft, "0", none, none⟩

def wDraft : World := ⟨[taskDraft], [], 0, 0⟩

def fundReqDraft : TaskFundingRequest := ⟨"t3", "0xOwner", "100", "base:0xTok", "sig"⟩

/-- Counterexample for C1 as stated: with a valid owner signature on an
existing draft task, owner matching, and the ledger entry missing,
`fundTask` fails with `invalid_request`, not `conflict`. -/
theorem fundTask_missing_deposit_not_conflict_cex :
    findTask wDraft "t3" = some taskDraft ∧
    taskDraft.status = TaskStatus.draft ∧
    envMissing.normalize fundReqDraft.ownerAddress = taskDraft.owner ∧
    (envMissing.fetchDeposit (envMissing.depositKey "t3")).owner = ZERO_ADDRESS ∧
    fundTask envMissing wDraft fundReqDraft =
      (.error (svcErr 400 "invalid_request" "Deposit not found on chain"), wDraft) ∧
    errorCode (fundTask envMissing wDraft fundReqDraft).1 ≠ some "conflict" := by
  refine ⟨rfl, rfl, rfl, rfl, rfl, by decide⟩

/-- Witness for C1 (amended) at the concrete draft task with an
agreeing ledger entry. -/
theorem fundTask_escrow_reconciliation_witness :
    envStd.verify fundReqDraft.ownerAddress
      (taskFundingSignaturePayload fundReqDraft) fundReqDraft.signature = true ∧
    findTask wDraft "t3" = some taskDraft ∧
    ¬(taskDraft.status = .finished ∨ taskDraft.status = .closed) ∧
    envStd.normalize fundReqDraft.ownerAddress = taskDraft.owner ∧
    FundTaskLedgerSpec envStd wDraft fundReqDraft taskDraft :=
  ⟨rfl, rfl, by decide, rfl,
    fundTask_escrow_reconciliation envStd wDraft fundReqDraft taskDraft
      rfl rfl (by decide) rfl⟩

/-- C9: rejecting a pending response of an active funded task, with all
identity, price and signature checks passing, persists `rejected` with
both settlement fields null and does not write the tasks store at all —
the parent task record, still `active`, is untouched. -/
theorem decision_rejection_frames_task (env : Env) (w : World) (p : DecisionRequest)
    (response : ResponseRecord) (task : TaskRecord)
    (hrej : p.status = .rejected)
    (hr : findResponse w p.responseId = some response)
    (hrp : response.status = .pending)
    (ht : findTask w response.task_id = some task)
    (hactive : task.status = .active)
    (htok : task.token ≠ none) (hpr : task.price ≠ "0")
    (ho : env.normalize p.ownerAddress = task.owner)
    (hwk : env.normalize p.workerAddress = response.worker)
    (hp : p.price = task.price)
    (hv : env.verify p.ownerAddress (decisionSignaturePayload p) p.signature = true)
    (hw : env.writeOk w.writes = true) :
    (decideOnResponse env w p).1 = .ok { response with
      status := .rejected, settlement := none, settlement_signature := none } ∧
    (decideOnResponse env w p).2.tasks = w.tasks ∧
    findTask (decideOnResponse env w p).2 response.task_id = some task := by
  have main : decideOnResponse env w p =
      (.ok { response with
        status := .rejected, settlement := none, settlement_signature := none },
       { w with
         responses := updateResponseList w.responses p.responseId
           (fun x => { x with
             status := ResponseStatus.rejected,
             settlement := none,
             settlement_signature := none }),
         writes := w.writes + 1 }) := by
    unfold decideOnResponse
    rw [hrej]
    rw [if_neg (by simp)]
    rw [hr]
    dsimp only
    rw [if_neg (by simp [hrp])]
    rw [ht]
    dsimp only
    rw [if_neg (by simp [htok, hpr])]
    rw [if_neg (by simp [ho])]
    rw [if_neg (by simp [hwk])]
    rw [if_neg (by simp [hp])]
    rw [if_neg (by simp)]
    rw [hv, if_neg (by simp)]
    rw [if_neg (by simp), if_neg (by simp)]
    rw [updateResponseStatus_found env w p.responseId .rejected none none response hw hr]
    dsimp only
    rw [if_neg (by simp)]
  rw [main]
  exact ⟨rfl, rfl, ht⟩

/-- The record and task state C4 requires after a successful approval:
the response is persisted `approved` carrying the settlement blob and
signature, and the parent task is flipped to `finished`. -/
def DecisionApprovalPersists (env : Env) (w : World) (p : DecisionRequest)
    (response : ResponseRecord) (task : TaskRecord) (blob sig : String) : Prop :=
  (decisionRoute env w p).1 = .ok { response with
    status := .approved, settlement := some blob, settlement_signature := some sig } ∧
  findTask (decisionRoute env w p).2 response.task_id =
    some { task with status := .finished }

/-- C4: an approving decision fails with `invalid_request` unless both
the encrypted settlement blob and the settlement-authorization signature
are present; when it passes all checks it persists `approved` together
with both settlement artifacts and then flips the parent task to
`finished`. -/
theorem decision_approval_requires_and_persists_settlement :
    (∀ (env : Env) (w : World) (p : DecisionRequest), p.status = .approved →
      (jsFalsy p.settlementSignature = true ∨ jsFalsy p.encryptedSettlement = true) →
      ∃ m, decisionRoute env w p = (.error (svcErr 400 "invalid_request" m), w)) ∧
    (∀ (env : Env) (w : World) (p : DecisionRequest) (response : ResponseRecord)
      (task : TaskRecord) (blob sig : String),
      p.status = .approved →
      p.encryptedSettlement = some blob → blob ≠ "" →
      p.settlementSignature = some sig → sig ≠ "" →
      findResponse w p.responseId = some response →
      response.status = .pending →
      findTask w response.task_id = some task →
      task.token ≠ none → task.price ≠ "0" →
      env.normalize p.ownerAddress = task.owner →
      env.normalize p.workerAddress = response.worker →
      p.price = task.price →
      env.verify p.ownerAddress (decisionSignaturePayload p) p.signature = true →
      (∀ k, env.writeOk k = true) →
      DecisionApprovalPersists env w p response task blob sig) := by
  constructor
  · intro env w p happ hmissing
    unfold decisionRoute
    rw [happ]
    rw [if_neg (by simp)]
    by_cases hsig : jsFalsy p.settlementSignature = true
    · rw [if_pos ⟨rfl, hsig⟩]
      exact ⟨"settlementSignature required when approving response", rfl⟩
    · rw [if_neg (by simp [hsig])]
      rcases hmissing with h | h
      · exact absurd h hsig
      · rw [if_pos ⟨rfl, h⟩]
        exact ⟨"encryptedSettlement required when approving response", rfl⟩
  · intro env w p response task blob sig happ hblob hblobne hsig hsigne hr hrp ht htok
      hpr ho hwk hp hv hw
    have hid : task.id = response.task_id := findTask_id ht
    have hupd : decideOnResponse env w p =
        (.ok { response with
          status := .approved, settlement := some blob, settlement_signature := some sig },
         { { w with
             responses := updateResponseList w.responses p.responseId
               (fun x => { x with
                 status := ResponseStatus.approved,
                 settlement := some blob,
                 settlement_signature := some sig }),
             writes := w.writes + 1 } with
           tasks := updateTaskList w.tasks task.id
             (fun x => { x with status := TaskStatus.finished }),
           writes := w.writes + 2 }) := by
      unfold decideOnResponse
      rw [happ]
      rw [if_neg (by simp)]
      rw [hr]
      dsimp only
      rw [if_neg (by simp [hrp])]
      rw [ht]
      dsimp only
      rw [if_neg (by simp [htok, hpr])]
      rw [if_neg (by simp [ho])]
      rw [if_neg (by simp [hwk])]
      rw [if_neg (by simp [hp])]
      rw [if_neg (by simp [jsFalsy, hblob, hblobne])]
      rw [hv, if_neg (by simp)]
      rw [if_pos rfl, if_pos rfl, hblob, hsig]
      rw [updateResponseStatus_found env w p.responseId .approved (some blob) (some sig)
        response (hw w.writes) hr]
      dsimp only
      rw [if_pos rfl]
      have ht1 : findTask
          { w with
            responses := updateResponseList w.responses p.responseId
              (fun x => { x with
                status := ResponseStatus.approved,
                settlement := some blob,
                settlement_signature := some sig }),
            writes := w.writes + 1 } task.id = some task := by
        unfold findTask
        dsimp only
        rw [hid]
        exact ht
      rw [updateTaskStatus_found _ _ task.id .finished task (hw _) ht1]
    unfold DecisionApprovalPersists
    have hroute : decisionRoute env w p = decideOnResponse env w p := by
      unfold decisionRoute
      rw [happ]
      rw [if_neg (by simp), if_neg (by simp [jsFalsy, hsig, hsigne]),
        if_neg (by simp [jsFalsy, hblob, hblobne])]
    rw [hroute, hupd]
    refine ⟨rfl, ?_⟩
    unfold findTask
    dsimp only
    rw [← hid]
    rw [find?_updateTaskList w.tasks task.id
      (fun x => { x with status := TaskStatus.finished }) (fun x => rfl)]
    rw [show w.tasks.find? (fun x => x.id == task.id) = some task by rw [hid]; exact ht]
    rfl

/-- A pending response to `taskActive` by worker `0xWorker`. -/
def respPending : ResponseRecord :=
  ⟨"r1", "t1", "payload", "0xWorker", .pending, 0, none, none⟩

def wDecide : World := ⟨[taskActive], [respPending], 0, 0⟩

/-- A rejecting decision on `respPending`. -/
def decReqRej : DecisionRequest :=
  ⟨"r1", "0xWorker", "0xOwner", "50", "sig", .rejected, none, none⟩

/-- An approving decision on `respPending` carrying both settlement
artifacts. -/
def decReqApp : DecisionRequest :=
  ⟨"r1", "0xWorker", "0xOwner", "50", "sig", .approved, some "sealed", some "0xsettle"⟩

/-- The approving decision with the settlement signature absent. -/
def decReqAppNoSig : DecisionRequest :=
  ⟨"r1", "0xWorker", "0xOwner", "50", "sig", .approved, some "sealed", none⟩

/-- Witness for C9 at the concrete rejection. -/
theorem decision_rejection_frames_task_witness :
    decReqRej.status = .rejected ∧
    findResponse wDecide "r1" = some respPending ∧
    respPending.status = .pending ∧
    findTask wDecide respPending.task_id = some taskActive ∧
    taskActive.status = .active ∧
    (decideOnResponse envStd wDecide decReqRej).1 = .ok { respPending with
      status := .rejected, settlement := none, settlement_signature := none } ∧
    (decideOnResponse envStd wDecide decReqRej).2.tasks = wDecide.tasks ∧
    findTask (decideOnResponse envStd wDecide decReqRej).2 respPending.task_id =
      some taskActive := by
  have h := decision_rejection_frames_task envStd wDecide decReqRej respPending taskActive
    rfl rfl rfl rfl rfl (by decide) (by decide) rfl rfl rfl rfl rfl
  exact ⟨rfl, rfl, rfl, rfl, rfl, h.1, h.2.1, h.2.2⟩

/-- Witness for C4: approving without a settlement signature fails with
`invalid_request`; the fully-equipped approval persists both artifacts
and finishes the task. -/
theorem decision_approval_settlement_witness :
    (decReqAppNoSig.status = .approved ∧ jsFalsy decReqAppNoSig.settlementSignature = true ∧
      ∃ m, decisionRoute envStd wDecide decReqAppNoSig =
        (.error (svcErr 400 "invalid_request" m), wDecide)) ∧
    (decReqApp.status = .approved ∧
      decReqApp.encryptedSettlement = some "sealed" ∧
      decReqApp.settlementSignature = some "0xsettle" ∧
      findResponse wDecide "r1" = some respPending ∧
      findTask wDecide respPending.task_id = some taskActive ∧
      DecisionApprovalPersists envStd wDecide decReqApp respPending taskActive
        "sealed" "0xsettle") :=
  ⟨⟨rfl, rfl,
    decision_approval_requires_and_persists_settlement.1 envStd wDecide decReqAppNoSig
      rfl (Or.inl rfl)⟩,
   ⟨rfl, rfl, rfl, rfl, rfl,
    decision_approval_requires_and_persists_settlement.2 envStd wDecide decReqApp
      respPending taskActive "sealed" "0xsettle" rfl rfl (by decide) rfl (by decide)
      rfl rfl rfl (by decide) (by decide) rfl rfl rfl rfl (fun k => rfl)⟩⟩

/-- C8 (amended): when every store write succeeds, `cancelTask` on an
active funded task with no cached authorization runs to completion,
invoking the administrative signer once and persisting the `closed`
status together with the withdraw signature; the business-rule checks
all precede the first write. The two writes are, however, separate store
operations (see the counterexample for the partial-commit behaviour
when the second write fails). -/
theorem cancelTask_commit_on_success (env : Env) (w : World) (p : TaskCancelRequest)
    (task : TaskRecord) (tok : String) (ti : ParsedToken) (n : Nat)
    (hv : env.verify p.ownerAddress (taskCancelSignaturePayload p) p.signature = true)
    (ht : findTask w p.taskId = some task)
    (htok : task.token = some tok) (hpr : task.price ≠ "0")
    (ho : env.normalize p.ownerAddress = task.owner)
    (hst : task.status = .active)
    (hnosig : task.withdraw_signature = none)
    (hti : parseTokenIdentifier env tok = some ti)
    (hn : parsePrice task.price = some n) (hpos : 0 < n)
    (hw : ∀ k, env.writeOk k = true) :
    (cancelTask env w p).1 = .ok { task with
      status := .closed,
      withdraw_signature :=
        some (env.signWithdraw (env.depositKey task.id) task.owner ti.address n) } ∧
    findTask (cancelTask env w p).2 p.taskId = some { task with
      status := .closed,
      withdraw_signature :=
        some (env.signWithdraw (env.depositKey task.id) task.owner ti.address n) } ∧
    (cancelTask env w p).2.signerCalls = w.signerCalls + 1 := by
  have hclosed : findTask
      { w with signerCalls := w.signerCalls + 1 } p.taskId = some task := ht
  have hmid : findTask
      { w with
        tasks := updateTaskList w.tasks p.taskId
          (fun x => { x with status := TaskStatus.closed }),
        writes := w.writes + 1, signerCalls := w.signerCalls + 1 } p.taskId =
      some { task with status := TaskStatus.closed } := by
    unfold findTask
    dsimp only
    rw [find?_updateTaskList w.tasks p.taskId
      (fun x => { x with status := TaskStatus.closed }) (fun x => rfl)]
    rw [show w.tasks.find? (fun x => x.id == p.taskId) = some task from ht]
    rfl
  have main : cancelTask env w p =
      (.ok { task with
        status := .closed,
        withdraw_signature :=
          some (env.signWithdraw (env.depositKey task.id) task.owner ti.address n) },
       { w with
         tasks := updateTaskList
           (updateTaskList w.tasks p.taskId (fun x => { x with status := TaskStatus.closed }))
           p.taskId
           (fun x => { x with
             withdraw_signature :=
               some (env.signWithdraw (env.depositKey task.id) task.owner ti.address n) }),
         writes := w.writes + 2, signerCalls := w.signerCalls + 1 }) := by
    unfold cancelTask
    rw [hv, if_neg (by simp), ht]
    dsimp only
    rw [if_neg (by simp [htok, hpr]), ho, if_neg (by simp), if_neg (by simp [hst]),
      if_neg (by simp [hst]), if_neg (by simp [hst]), htok]
    dsimp only
    rw [hti]
    dsimp only
    rw [hn]
    dsimp only
    rw [if_neg (by omega), hnosig]
    dsimp only
    unfold signWithdrawAuthorization
    dsimp only
    rw [updateTaskStatus_found env { w with signerCalls := w.signerCalls + 1 }
      p.taskId .closed task (hw _) hclosed]
    dsimp only
    rw [storeWithdrawSignature_found env _ p.taskId
      (env.signWithdraw (env.depositKey task.id) task.owner ti.address n)
      { task with status := TaskStatus.closed } (hw _) hmid]
    dsimp only
    rw [htok]
  rw [main]
  refine ⟨rfl, ?_, rfl⟩
  unfold findTask
  dsimp only
  rw [find?_updateTaskList
    (updateTaskList w.tasks p.taskId (fun x => { x with status := TaskStatus.closed }))
    p.taskId
    (fun x => { x with
      withdraw_signature :=
        some (env.signWithdraw (env.depositKey task.id) task.owner ti.address n) })
    (fun x => rfl)]
  rw [show (updateTaskList w.tasks p.taskId
      (fun x => { x with status := TaskStatus.closed })).find?
        (fun x => x.id == p.taskId) =
      some { task with status := TaskStatus.closed } from hmid]
  rfl

/-- Environment in which the first store write succeeds and every later
one fails. -/
def envPartial : Env := { envStd with writeOk := fun k => k == 0 }

def cancelReqActive : TaskCancelRequest := ⟨"t1", "0xOwner", "sig"⟩

/-- Counterexample for C8 as stated: cancelling the active task when the
signature-persist write fails after the status write leaves the task
`closed` with its withdraw-signature field still empty — the call fails
but the state is not what it was before the call. -/
theorem cancelTask_partial_write_cex :
    taskActive.status = TaskStatus.active ∧
    taskActive.withdraw_signature = none ∧
    (cancelTask envPartial wActive cancelReqActive).1 = .error (.thrown "db write failed") ∧
    findTask (cancelTask envPartial wActive cancelReqActive).2 "t1" =
      some { taskActive with status := TaskStatus.closed } ∧
    { taskActive with status := TaskStatus.closed } ≠ taskActive := by
  refine ⟨rfl, rfl, rfl, rfl, by decide⟩

/-- Witness for C8 (amended) at the concrete active task. -/
theorem cancelTask_commit_on_success_witness :
    envStd.verify cancelReqActive.ownerAddress
      (taskCancelSignaturePayload cancelReqActive) cancelReqActive.signature = true ∧
    findTask wActive "t1" = some taskActive ∧
    taskActive.token = some "base:0xTok" ∧
    taskActive.status = .active ∧
    taskActive.withdraw_signature = none ∧
    parseTokenIdentifier envStd "base:0xTok" = some ⟨"base", "0xTok"⟩ ∧
    parsePrice taskActive.price = some 50 ∧
    (cancelTask envStd wActive cancelReqActive).1 = .ok { taskActive with
      status := .closed,
      withdraw_signature :=
        some (envStd.signWithdraw (envStd.depositKey taskActive.id)
          taskActive.owner "0xTok" 50) } ∧
    findTask (cancelTask envStd wActive cancelReqActive).2 "t1" =
      some { taskActive with
        status := .closed,
        withdraw_signature :=
          some (envStd.signWithdraw (envStd.depositKey taskActive.id)
            taskActive.owner "0xTok" 50) } ∧
    (cancelTask envStd wActive cancelReqActive).2.signerCalls = wActive.signerCalls + 1 := by
  have h := cancelTask_commit_on_success envStd wActive cancelReqActive taskActive
    "base:0xTok" ⟨"base", "0xTok"⟩ 50
    rfl rfl rfl (by decide) rfl rfl rfl rfl rfl (by decide) (fun k => rfl)
  exact ⟨rfl, rfl, rfl, rfl, rfl, rfl, rfl, h.1, h.2.1, h.2.2⟩

end Spec2Proof
